import Mathlib

/-!
Shallow embedding of the RAG-doc-chat backend message pipeline
(src/backend/src/controllers/message.ts and src/backend/src/services/ai.ts).

Part 1: keyset pagination (getMessages).

Stored message rows are modelled with string-valued `created_at` and `id`
fields, compared with the lexicographic string order, matching the store's
comparison of fixed-precision ISO-8601 timestamps and identifiers in the
keyset filter of getMessages.
-/

/-- A row of the messages table, as selected by getMessages. -/
structure Msg where
  id : String
  conversation_id : String
  role : String
  content : String
  created_at : String
deriving DecidableEq, Repr

/-- Terminal error outcomes of the getMessages handler before a page is
produced: the 400 for a bad direction, the 404 for a missing conversation,
and the 400 for a malformed cursor. -/
inductive GetError where
  | invalidDirection
  | notFound
  | invalidCursor
deriving DecidableEq, Repr

/-- The pagination block of a successful getMessages response. -/
structure Pagination where
  limit : Nat
  next_cursor : Option String
  prev_cursor : Option String
  has_more : Bool
deriving DecidableEq, Repr

/-- A successful getMessages response body. -/
structure PageOk where
  messages : List Msg
  pagination : Pagination
deriving DecidableEq, Repr

instance : DecidableEq (Except GetError PageOk) := fun a b =>
  match a, b with
  | .ok x, .ok y => if h : x = y then isTrue (by rw [h]) else isFalse (by simp [h])
  | .error x, .error y => if h : x = y then isTrue (by rw [h]) else isFalse (by simp [h])
  | .ok _, .error _ => isFalse (by simp)
  | .error _, .ok _ => isFalse (by simp)

/-- Model of JavaScript String.prototype.split with a one-character
separator, at the character-list level: splitting never returns an empty
list, and separators at the ends produce empty components. -/
def jsSplitChars (sep : Char) : List Char → List (List Char)
  | [] => [[]]
  | c :: cs =>
    if c = sep then [] :: jsSplitChars sep cs
    else
      match jsSplitChars sep cs with
      | [] => [[c]]
      | p :: ps => (c :: p) :: ps

/-- Model of JavaScript String.prototype.split with a one-character
separator (the code splits the cursor on the one-character string "_"). -/
def jsSplit (s : String) (sep : Char) : List String :=
  (jsSplitChars sep s.data).map (fun l => String.mk l)

/-- Characters skipped by JavaScript parseInt before the sign and digits. -/
def jsWhitespace (c : Char) : Bool :=
  c == ' ' || c == '\t' || c == '\n' || c == '\r'

/-- Model of JavaScript Number.parseInt(s, 10): skip leading whitespace,
read an optional sign, then the maximal run of decimal digits; `none`
models NaN (no digits found). -/
def jsParseInt (s : String) : Option Int :=
  let cs := s.data.dropWhile jsWhitespace
  let signed : Int × List Char :=
    match cs with
    | '-' :: r => (-1, r)
    | '+' :: r => (1, r)
    | r => (1, r)
  let ds := signed.2.takeWhile Char.isDigit
  if ds = [] then none
  else some (signed.1 * Int.ofNat (ds.foldl (fun acc c => acc * 10 + (c.toNat - 48)) 0))

/-- The limit resolution of getMessages (message.ts lines 36-43):
parseInt the raw query value, fall back to the default 50 unless the
parse produced a finite positive number, then clamp to the max 100. -/
def resolveLimit (raw : String) : Nat :=
  let l : Int :=
    match jsParseInt raw with
    | some n => if 0 < n then n else 50
    | none => 50
  (min l 100).toNat

/-- Strict lexicographic comparison of character lists: the store's
ordering of the fixed-precision timestamp strings and identifier strings
that the keyset filter compares. -/
def charsLt : List Char → List Char → Bool
  | _, [] => false
  | [], _ :: _ => true
  | a :: as, b :: bs =>
    if a < b then true
    else if a = b then charsLt as bs
    else false

/-- Strict lexicographic comparison of strings. -/
def strLt (a b : String) : Bool := charsLt a.data b.data

/-- The keyset filter for direction after (message.ts line 87-89):
row.created_at > cursorCreatedAt OR
(row.created_at = cursorCreatedAt AND row.id > cursorId). -/
def afterCond (cCa cId : String) (m : Msg) : Bool :=
  strLt cCa m.created_at || (m.created_at == cCa && strLt cId m.id)

/-- The keyset filter for direction before (message.ts line 95-97):
row.created_at < cursorCreatedAt OR
(row.created_at = cursorCreatedAt AND row.id < cursorId). -/
def beforeCond (cCa cId : String) (m : Msg) : Bool :=
  strLt m.created_at cCa || (m.created_at == cCa && strLt m.id cId)

/-- The order `(created_at ASC, id ASC)` used by the after branch,
as a non-strict relation for sorting rows. -/
def msgLe (a b : Msg) : Prop :=
  strLt a.created_at b.created_at = true ∨
    (a.created_at = b.created_at ∧ (strLt a.id b.id = true ∨ a.id = b.id))

instance : DecidableRel msgLe := fun a b =>
  inferInstanceAs (Decidable (strLt a.created_at b.created_at = true ∨
    (a.created_at = b.created_at ∧ (strLt a.id b.id = true ∨ a.id = b.id))))

/-- The order `(created_at DESC, id DESC)` used by the before branch and
the initial load. -/
def msgGe (a b : Msg) : Prop := msgLe b a

instance : DecidableRel msgGe := fun a b =>
  inferInstanceAs (Decidable (msgLe b a))

/-- Strict `(created_at, id)` order: the intended uniqueness order on the
rows of one conversation (ids are unique identifiers). -/
def msgLt (a b : Msg) : Prop :=
  strLt a.created_at b.created_at = true ∨
    (a.created_at = b.created_at ∧ strLt a.id b.id = true)

instance : DecidableRel msgLt := fun a b =>
  inferInstanceAs (Decidable (strLt a.created_at b.created_at = true ∨
    (a.created_at = b.created_at ∧ strLt a.id b.id = true)))

/-- Cursor encoding (message.ts lines 128-130): the template literal
`created_at_id` of a row. -/
def encodeCursor (m : Msg) : String :=
  m.created_at ++ "_" ++ m.id

/-- Cursor parsing (message.ts lines 64-75): when a truthy cursor was
supplied, split it on the underscore; exactly two components (possibly
empty, as in the source) succeed, anything else is the 400
"Invalid cursor format" response. -/
def parseCursor (truthy : Bool) (s : String) : Except GetError (Option (String × String)) :=
  if truthy then
    match jsSplit s '_' with
    | [a, b] => .ok (some (a, b))
    | _ => .error .invalidCursor
  else .ok none

/-- The store query of getMessages (message.ts lines 77-112): filter the
conversation's rows, add the keyset condition when the cursor and both of
its components are truthy, order by the direction's `(created_at, id)`
order, and apply the limit. -/
def runQuery (store : List Msg) (cid : String)
    (cursorParts : Option (String × String)) (direction : String)
    (limit : Nat) : List Msg :=
  let base := store.filter (fun m => m.conversation_id == cid)
  let rows :=
    match cursorParts with
    | some (cCa, cId) =>
      if cCa ≠ "" ∧ cId ≠ "" then
        if direction = "after" then
          List.insertionSort msgLe (base.filter (afterCond cCa cId))
        else
          List.insertionSort msgGe (base.filter (beforeCond cCa cId))
      else
        List.insertionSort msgGe base
    | none => List.insertionSort msgGe base
  rows.take limit

/-- Response assembly of getMessages (message.ts lines 119-141):
next_cursor encodes the last returned row but is kept only on an exactly
full page, prev_cursor encodes the first returned row but is kept only
when the request supplied a truthy cursor, and has_more is the full-page
test. -/
def buildPage (cursorSupplied : Bool) (limit : Nat) (rows : List Msg) : PageOk :=
  let nextCursor := rows.getLast?.map encodeCursor
  let prevCursor := rows.head?.map encodeCursor
  { messages := rows
    pagination :=
      { limit := limit
        next_cursor := if rows.length = limit then nextCursor else none
        prev_cursor := if cursorSupplied then prevCursor else none
        has_more := rows.length == limit } }

/-- Direction resolution (message.ts line 33): the query value with the
JavaScript falsy-or default "after". -/
def resolveDirection (qdirection : Option String) : String :=
  if qdirection.getD "" = "" then "after" else qdirection.getD ""

/-- The getMessages handler (message.ts lines 23-146) on the inputs that
reach it: the list of existing conversation ids, the stored message rows,
the path parameter, and the raw query parameters. Stages in source
order: resolve the limit, validate the direction, check the conversation
exists, parse the cursor, run the keyset query, assemble the response. -/
def getMessages (conversations : List String) (store : List Msg)
    (conversationId : String) (qlimit qcursor qdirection : Option String) :
    Except GetError PageOk :=
  let rawLimit := qlimit.getD ""
  let cursorStr := qcursor.getD ""
  let cursorTruthy : Bool := cursorStr != ""
  let direction := resolveDirection qdirection
  let limit := resolveLimit rawLimit
  if direction = "after" ∨ direction = "before" then
    if conversationId ∈ conversations then
      match parseCursor cursorTruthy cursorStr with
      | .error e => .error e
      | .ok cursorParts =>
        .ok (buildPage cursorTruthy limit (runQuery store conversationId cursorParts direction limit))
    else .error .notFound
  else .error .invalidDirection

/-- Client-side forward paging loop for the C1 property: request a page
with direction after, and while the response carries a next_cursor, pass
it forward and concatenate the returned pages. Fuel bounds the number of
requests. -/
def collectAfter (conversations : List String) (store : List Msg)
    (cid : String) (qlimit : Option String) :
    Nat → Option String → List Msg
  | 0, _ => []
  | fuel + 1, c =>
    match getMessages conversations store cid qlimit c (some "after") with
    | .error _ => []
    | .ok page =>
      match page.pagination.next_cursor with
      | none => page.messages
      | some c2 => page.messages ++ collectAfter conversations store cid qlimit fuel (some c2)

/-- A cursor component that the codec round-trips: non-empty and free of
the underscore delimiter (§4.1 of the design requires the chosen formats
to guarantee this). -/
def goodStr (s : String) : Prop := s ≠ "" ∧ '_' ∉ s.data

instance : DecidablePred goodStr := fun s =>
  inferInstanceAs (Decidable (s ≠ "" ∧ '_' ∉ s.data))

/-- A row whose created_at and id are valid cursor components. -/
def goodMsg (m : Msg) : Prop := goodStr m.created_at ∧ goodStr m.id

instance : DecidablePred goodMsg := fun m =>
  inferInstanceAs (Decidable (goodStr m.created_at ∧ goodStr m.id))

/-!
Part 2: the streaming pipeline (streamMessage of message.ts together with
streamAIResponse of ai.ts), embedded as a pure trace semantics over one
session. A scenario fixes the behaviour of the external collaborators:
the store (which rows insert successfully and with which generated ids),
the generation provider (its increments and its terminal outcome), and
the client connection (after how many successfully written events it
disconnects, which in Node both destroys the response stream and fires
the close listener that aborts the AbortController).
-/

/-- One server-sent event actually written to the wire. -/
inductive WireEvent where
  | token (content : String)
  | done (messageId : String)
  | error (err : String)
deriving DecidableEq, Repr

/-- A row inserted into the messages table by the streaming session. -/
structure PMsg where
  conversation_id : String
  role : String
  content : String
  id : String
deriving DecidableEq, Repr

/-- A JavaScript error value as inspected by the catch blocks: its
message, and the optional code and status fields carried by provider
errors (absent on plain Error objects such as the adapter's wrapper). -/
structure JsError where
  message : String
  code : Option String
  status : Option Int
deriving DecidableEq, Repr

/-- The content field of the request body: absent (or otherwise falsy
non-string such as null), present but not a string, or a string. -/
inductive ContentVal where
  | absent
  | nonString
  | str (s : String)
deriving DecidableEq, Repr

/-- One streaming request together with the behaviour of its external
collaborators. disconnectAfterEvents = some k means the client connection
closes once k events have been successfully written; from then on the
response stream is destroyed and the abort signal is set. -/
structure Scenario where
  conversations : List String
  conversationId : String
  content : ContentVal
  role : Option String
  providerKeyConfigured : Bool
  providerIncrements : List String
  providerFailure : Option JsError
  disconnectAfterEvents : Option Nat
  userInsertOk : Bool
  assistantInsertOk : Bool
  userMessageId : String
  assistantMessageId : String
deriving DecidableEq, Repr

/-- Mutable session state: events written so far and rows inserted so
far. -/
structure SState where
  events : List WireEvent
  persisted : List PMsg
deriving DecidableEq, Repr

/-- The observable outcome of one streaming request: the JSON error
response when the request was rejected before the stream was opened
(status and body message), the events written to the wire, and the rows
inserted into the store. -/
structure StreamRun where
  statusError : Option (Nat × String)
  events : List WireEvent
  persisted : List PMsg
deriving DecidableEq, Repr

/-- JavaScript String.prototype.length: the number of UTF-16 code units
(characters above the basic plane count twice). -/
def utf16Len (s : String) : Nat :=
  s.data.foldl (fun n c => n + (if c.toNat < 65536 then 1 else 2)) 0

/-- Naive character-list substring test used to model
String.prototype.includes. -/
def takeEq : List Char → List Char → Bool
  | [], _ => true
  | _ :: _, [] => false
  | a :: as, b :: bs => a == b && takeEq as bs

/-- Search every suffix for the pattern as a prefix. -/
def subSearch (sub : List Char) : List Char → Bool
  | [] => takeEq sub []
  | c :: t => takeEq sub (c :: t) || subSearch sub t

/-- Model of JavaScript s.includes(sub). -/
def jsIncludes (s sub : String) : Bool :=
  subSearch sub.data s.data

/-- Whether the client connection is gone at this state: true once the
number of successfully written events has reached the disconnect point.
This single flag models both res.destroyed and abortController.signal
.aborted, which the code couples through the res close listener
(message.ts lines 326-331). -/
def connDead (sc : Scenario) (st : SState) : Bool :=
  match sc.disconnectAfterEvents with
  | none => false
  | some k => decide (k ≤ st.events.length)

/-- sendEvent (message.ts lines 334-353): fail without writing when the
response stream is already gone, otherwise serialize and write the one
event. The returned flag is false exactly when the promise rejects. -/
def sendEvent (sc : Scenario) (st : SState) (e : WireEvent) : SState × Bool :=
  if connDead sc st then (st, false)
  else ({ st with events := st.events ++ [e] }, true)

/-- The catch block of streamAIResponse (ai.ts lines 142-156): attempt to
forward the raw error message as an error chunk (swallowing a send
failure), then rethrow a fresh Error wrapping the message — a plain
Error, so the wrapper carries no code and no status. -/
def aiCatch (sc : Scenario) (st : SState) (e : JsError) : SState × Except JsError String :=
  let msg := if e.message = "" then "AI streaming failed" else e.message
  let st2 := (sendEvent sc st (.error msg)).1
  (st2, .error ⟨"Failed to stream AI response: " ++ e.message, none, none⟩)

/-- The chunk loop of streamAIResponse (ai.ts lines 125-139): before each
increment check the abort signal and throw into the catch block if set;
otherwise append the increment to the accumulator and forward it as a
token event. When the provider's stream ends, either return the
accumulator or, if the provider fails at that point, throw into the
catch block. -/
def aiLoop (sc : Scenario) : List String → String → SState → SState × Except JsError String
  | [], acc, st =>
    match sc.providerFailure with
    | some e => aiCatch sc st e
    | none => (st, .ok acc)
  | c :: cs, acc, st =>
    if connDead sc st then
      aiCatch sc st ⟨"Request aborted during streaming", none, none⟩
    else
      let sent := sendEvent sc st (.token c)
      if sent.2 then aiLoop sc cs (acc ++ c) sent.1
      else aiCatch sc sent.1 ⟨"Response stream closed", none, none⟩

/-- streamAIResponse (ai.ts lines 85-157): fail fast inside the try block
when the API key is missing, check the abort signal before contacting the
provider, then consume the provider's incremental stream. -/
def streamAIResponse (sc : Scenario) (st : SState) : SState × Except JsError String :=
  if sc.providerKeyConfigured = false then
    aiCatch sc st ⟨"GOOGLE_API_KEY is not configured in environment variables", none, none⟩
  else if connDead sc st then
    aiCatch sc st ⟨"Request aborted before streaming started", none, none⟩
  else
    aiLoop sc sc.providerIncrements "" st

/-- The error classification of the streamMessage catch block
(message.ts lines 392-402), applied to the error thrown by the adapter. -/
def classifyAiError (e : JsError) : String :=
  if jsIncludes e.message "OPENAI_API_KEY" then "AI service not configured"
  else if e.code = some "ECONNREFUSED" then "Cannot connect to AI service"
  else if e.status = some 429 then "AI service rate limit exceeded"
  else
    match e.status with
    | some s => if 500 ≤ s then "AI service temporarily unavailable" else "AI service unavailable"
    | none => "AI service unavailable"

/-- Normal termination of the handler after res.end(). -/
def finishRun (st : SState) : StreamRun :=
  ⟨none, st.events, st.persisted⟩

/-- The outer catch block of streamMessage (message.ts lines 438-459):
best-effort write a final error event only when streaming had started and
the response is still writable, then ensure the response is ended. -/
def outerCatch (sc : Scenario) (st : SState) (started : Bool) : StreamRun :=
  if started ∧ connDead sc st = false then
    ⟨none, st.events ++ [.error "Internal server error"], st.persisted⟩
  else ⟨none, st.events, st.persisted⟩

/-- The streamMessage handler (message.ts lines 284-460): validate the
content, check the conversation, open the event stream, persist the user
message (with the body's role, defaulting to "user", unvalidated), emit
the intermediate done event, run the generation adapter, and on success
persist the assistant message and emit the final done event. Every
awaited sendEvent rejection propagates to the outer catch block;
streamingStarted becomes true only after the intermediate done event. -/
def streamMessage (sc : Scenario) : StreamRun :=
  match sc.content with
  | .absent => ⟨some (400, "content is required"), [], []⟩
  | .nonString => ⟨some (400, "content is required"), [], []⟩
  | .str s =>
    if s = "" then ⟨some (400, "content is required"), [], []⟩
    else if 10000 < utf16Len s then ⟨some (400, "content too long (max 10000)"), [], []⟩
    else if sc.conversationId ∈ sc.conversations then
      let role := sc.role.getD "user"
      let st0 : SState := ⟨[], []⟩
      if sc.userInsertOk then
        let stU : SState := ⟨st0.events, st0.persisted ++ [⟨sc.conversationId, role, s, sc.userMessageId⟩]⟩
        let sent1 := sendEvent sc stU (.done sc.userMessageId)
        if sent1.2 then
          let ai := streamAIResponse sc sent1.1
          match ai.2 with
          | .error e =>
            let sent3 := sendEvent sc ai.1 (.error (classifyAiError e))
            if sent3.2 then finishRun sent3.1 else outerCatch sc sent3.1 true
          | .ok full =>
            if connDead sc ai.1 then finishRun ai.1
            else if sc.assistantInsertOk then
              let stA : SState := ⟨ai.1.events, ai.1.persisted ++ [⟨sc.conversationId, "assistant", full, sc.assistantMessageId⟩]⟩
              let sent3 := sendEvent sc stA (.done sc.assistantMessageId)
              if sent3.2 then finishRun sent3.1 else outerCatch sc sent3.1 true
            else
              let sent3 := sendEvent sc ai.1 (.error "Failed to save AI response")
              if sent3.2 then finishRun sent3.1 else outerCatch sc sent3.1 true
        else outerCatch sc sent1.1 false
      else
        let sent1 := sendEvent sc st0 (.error "Failed to save user message")
        if sent1.2 then finishRun sent1.1 else outerCatch sc sent1.1 false
    else ⟨some (404, "Conversation not found"), [], []⟩

/-- True on token events; used to count the token events of a run. -/
def isTokenEvent : WireEvent → Bool
  | .token _ => true
  | _ => false

/-- True on error events; used to count the error events of a run. -/
def isErrorEvent : WireEvent → Bool
  | .error _ => true
  | _ => false

/-- The simulated provider of §8 of the spec: increments Hel, lo, !,
then a clean completion, with a valid request and a live client. -/
def c3scenario : Scenario :=
  ⟨["c1"], "c1", .str "Hi", none, true, ["Hel", "lo", "!"], none, none, true, true, "u1", "a1"⟩

/-- A provider failure carrying HTTP status 429, with a valid request, a
configured key and a live client. -/
def c4scenario : Scenario :=
  ⟨["c2"], "c2", .str "Hi", none, true, [], some ⟨"429 Too Many Requests", none, some 429⟩,
   none, true, true, "u2", "a2"⟩

/-- A request body carrying role "banana": accepted by the streaming
endpoint's validation, which only inspects content. -/
def c9scenario : Scenario :=
  ⟨["c3"], "c3", .str "hi", some "banana", true, ["Hi there"], none, none, true, true, "u3", "a3"⟩

/-- Valid request whose client disconnects after two written events
(the user done event and the first token). -/
def c2scenario : Scenario :=
  ⟨["c4"], "c4", .str "hi", none, true, ["Hel", "lo", "!"], none, some 2, true, true, "u4", "a4"⟩

/-- A content string of 10001 characters, one over the limit. -/
def c7content : String := String.mk (List.replicate 10001 'a')

/-- Request carrying the over-long content, with every collaborator
otherwise healthy. -/
def c7scenario : Scenario :=
  ⟨["c5"], "c5", .str c7content, none, true, ["x"], none, none, true, true, "u5", "a5"⟩

/-- The sole message of the C6 counterexample conversation. -/
def c6msg : Msg := ⟨"m1", "c6", "user", "x", "t1"⟩

/-- The sole message of the C6 witness conversation. -/
def c6wmsg : Msg := ⟨"w1", "cw", "user", "x", "t2"⟩

/-- The sole message of the C10 witness conversation. -/
def c10msg : Msg := ⟨"p1", "cp", "user", "x", "t5"⟩

/-!
Theorems. Helper lemmas come first, then one theorem per claim (with its
witness or counterexample where required).
-/

/-- The resolved limit is at least 1. -/
theorem resolveLimit_pos (s : String) : 1 ≤ resolveLimit s := by
  unfold resolveLimit
  cases h : jsParseInt s with
  | none => simp
  | some n =>
    simp only [min_def]
    split <;> split <;> omega

/-- The resolved limit is at most 100. -/
theorem resolveLimit_le (s : String) : resolveLimit s ≤ 100 := by
  unfold resolveLimit
  cases h : jsParseInt s with
  | none => simp
  | some n =>
    simp only [min_def]
    split <;> split <;> omega

/-- C8: the pagination limit resolves to the default 50 whenever the
supplied value is absent (parsed as NaN), non-numeric (NaN), or
non-positive; any parsed value above 100 is clamped to 100; and the
effective limit always lies in [1, 100]. Concretely "0", "-5", "abc"
and the absent value "" resolve to 50 and "500" resolves to 100. -/
theorem resolveLimit_spec (s : String) :
    (jsParseInt s = none → resolveLimit s = 50) ∧
    (∀ n : Int, jsParseInt s = some n → n ≤ 0 → resolveLimit s = 50) ∧
    (∀ n : Int, jsParseInt s = some n → 100 < n → resolveLimit s = 100) ∧
    1 ≤ resolveLimit s ∧ resolveLimit s ≤ 100 := by
  refine ⟨?_, ?_, ?_, resolveLimit_pos s, resolveLimit_le s⟩
  · intro h
    unfold resolveLimit
    simp [h]
  · intro n h hn
    unfold resolveLimit
    simp only [h]
    have : ¬ (0 < n) := by omega
    simp [this]
  · intro n h hn
    unfold resolveLimit
    simp only [h]
    have h0 : 0 < n := by omega
    have h100 : min n 100 = 100 := by omega
    simp [h0, h100]

/-- Witness for C8: applying the theorem at the concrete query values of
the spec, "0" resolves to 50 and "500" resolves to 100. -/
theorem resolveLimit_spec_witness :
    resolveLimit "0" = 50 ∧ resolveLimit "-5" = 50 ∧ resolveLimit "abc" = 50 ∧
    resolveLimit "" = 50 ∧ resolveLimit "500" = 100 :=
  ⟨(resolveLimit_spec "0").2.1 0 (by decide) (by decide),
   (resolveLimit_spec "-5").2.1 (-5) (by decide) (by decide),
   (resolveLimit_spec "abc").1 (by decide),
   (resolveLimit_spec "").1 (by decide),
   (resolveLimit_spec "500").2.2.1 500 (by decide) (by decide)⟩

/-- The UTF-16 length accumulator adds exactly one per character when
every character is in the basic plane. -/
theorem utf16_foldl_bmp (l : List Char) (acc : Nat)
    (h : ∀ c ∈ l, c.toNat < 65536) :
    l.foldl (fun n c => n + (if c.toNat < 65536 then 1 else 2)) acc = acc + l.length := by
  induction l generalizing acc with
  | nil => simp
  | cons c t ih =>
    have hc : c.toNat < 65536 := h c (by simp)
    have ht : ∀ x ∈ t, x.toNat < 65536 := fun x hx => h x (by simp [hx])
    simp only [List.foldl_cons, if_pos hc, List.length_cons, ih (acc + 1) ht]
    omega

/-- The UTF-16 length of a basic-plane string is its character count. -/
theorem utf16Len_bmp (l : List Char) (h : ∀ c ∈ l, c.toNat < 65536) :
    utf16Len (String.mk l) = l.length := by
  unfold utf16Len
  simpa using utf16_foldl_bmp l 0 h

/-- C7: the streaming endpoint rejects a missing, non-string, or empty
content value, and any content longer than 10000 length units, with a
400 response produced before any side effect: nothing is persisted, no
event is written, and the transport is never upgraded to an event
stream (the run ends with a JSON status error). -/
theorem streamMessage_rejects_invalid_content (sc : Scenario)
    (h : sc.content = .absent ∨ sc.content = .nonString ∨ sc.content = .str "" ∨
         ∃ s, sc.content = .str s ∧ 10000 < utf16Len s) :
    ∃ m, streamMessage sc = ⟨some (400, m), [], []⟩ := by
  rcases h with h | h | h | ⟨s, h, hlen⟩
  · exact ⟨"content is required", by rw [streamMessage, h]⟩
  · exact ⟨"content is required", by rw [streamMessage, h]⟩
  · exact ⟨"content is required", by rw [streamMessage, h]; rfl⟩
  · by_cases hs : s = ""
    · subst hs
      simp [utf16Len] at hlen
    · exact ⟨"content too long (max 10000)", by rw [streamMessage, h]; simp [hs, hlen]⟩

/-- Witness for C7: a content of 10001 characters is rejected with a 400
before any persistence, by the theorem applied at the concrete
scenario. -/
theorem streamMessage_rejects_invalid_content_witness :
    ∃ m, streamMessage c7scenario = ⟨some (400, m), [], []⟩ :=
  streamMessage_rejects_invalid_content c7scenario
    (Or.inr (Or.inr (Or.inr ⟨c7content, rfl, by
      have h : utf16Len c7content = 10001 := by
        unfold c7content
        rw [utf16Len_bmp]
        · exact List.length_replicate 10001 'a'
        · intro c hc
          rw [List.eq_of_mem_replicate hc]
          decide
      omega⟩)))

/-- C3 counterexample: with the simulated provider yielding the three
increments Hel, lo, !, the session emits three token events, not two as
the claim states — one token event is written per provider increment. -/
theorem c3_two_token_events_false :
    ((streamMessage c3scenario).events.filter isTokenEvent).length ≠ 2 := by decide

/-- C3 amended: with the simulated provider yielding Hel, lo, ! and then
completing, with no cancellation and no store failure, the session
persists the user message, emits one done event for it, emits THREE
token events with the increments in provider order, persists an
assistant message whose content is the concatenation Hello!, and emits
a final done event with the assistant message id. -/
theorem c3_full_session :
    streamMessage c3scenario =
      ⟨none,
       [.done "u1", .token "Hel", .token "lo", .token "!", .done "a1"],
       [⟨"c1", "user", "Hi", "u1"⟩, ⟨"c1", "assistant", "Hello!", "a1"⟩]⟩ := by decide

/-- C4: with a configured key and a provider failure carrying status
429, the session emits TWO error events — first the adapter's raw
provider message (ai.ts catch block), then the controller's classified
message — and the classified message is "AI service unavailable", not
"AI service rate limit exceeded": the adapter rethrows a fresh Error
that drops the status and code fields, so the 429, >=500 and
ECONNREFUSED branches of the classifier can never fire, and the
configuration branch tests for OPENAI_API_KEY while the adapter throws
GOOGLE_API_KEY messages. No assistant message is persisted. -/
theorem c4_rate_limit_run :
    streamMessage c4scenario =
      ⟨none,
       [.done "u2", .error "429 Too Many Requests", .error "AI service unavailable"],
       [⟨"c2", "user", "Hi", "u2"⟩]⟩ ∧
    ((streamMessage c4scenario).events.filter isErrorEvent).length = 2 := by decide

/-- C9: the streaming endpoint accepts a body whose role field is
"banana" (content validation never inspects role, unlike createMessage)
and persists the user turn with that role, which is outside the
user/assistant/system enum. -/
theorem c9_role_unvalidated :
    (streamMessage c9scenario).persisted.map PMsg.role = ["banana", "assistant"] ∧
    "banana" ∉ ["user", "assistant", "system"] := by decide

/-- C5 counterexample: the supplied cursor "_abc" splits into two
components on the underscore, one of them empty, and is NOT rejected
with the malformed-cursor error — the handler answers 200, silently
treating the request as an uncursored initial load. -/
theorem c5_empty_component_not_rejected :
    ¬ (getMessages ["c1"] [] "c1" none (some "_abc") none =
        .error .invalidCursor) := by decide

/-- C5 amended: for a supplied non-empty cursor string (past the
direction and conversation checks), the paginator fails with the
malformed-cursor error if and only if splitting the string on the
underscore yields a number of components different from two. Emptiness
of the components is NOT checked at parse time: a cursor such as "_abc"
or "abc_" splits into two components and is accepted, the empty
component then silently demoting the query to the uncursored initial
load. -/
theorem getMessages_malformed_cursor_iff (convs : List String) (store : List Msg)
    (cid : String) (qlimit : Option String) (s : String) (qdir : Option String)
    (hconv : cid ∈ convs)
    (hdir : qdir = none ∨ qdir = some "" ∨ qdir = some "after" ∨ qdir = some "before")
    (hs : s ≠ "") :
    (getMessages convs store cid qlimit (some s) qdir = .error .invalidCursor)
      ↔ (jsSplit s '_').length ≠ 2 := by
  have htr : (s != "") = true := by simpa using hs
  have hdirval : resolveDirection qdir = "after" ∨ resolveDirection qdir = "before" := by
    rcases hdir with h | h | h | h <;> simp [h, resolveDirection]
  simp only [getMessages, Option.getD_some, htr, if_pos hdirval, if_pos hconv, parseCursor,
    if_true]
  cases hsplit : jsSplit s '_' with
  | nil => exact iff_of_true rfl (by simp)
  | cons a t =>
    cases t with
    | nil => exact iff_of_true rfl (by simp)
    | cons b t2 =>
      cases t2 with
      | nil => exact iff_of_false (fun hc => Except.noConfusion hc) (by simp)
      | cons c t3 =>
        refine iff_of_true rfl ?_
        simp [List.length_cons]

/-- Witness for the amended C5: the three-component cursor "a_b_c" is
rejected with the malformed-cursor error, by the theorem applied at a
concrete request. -/
theorem getMessages_malformed_cursor_iff_witness :
    getMessages ["c1"] [] "c1" none (some "a_b_c") none =
      .error .invalidCursor :=
  (getMessages_malformed_cursor_iff ["c1"] [] "c1" none "a_b_c" none
    (by simp) (Or.inl rfl) (by decide)).mpr (by decide)

/-- Inversion: every successful getMessages response is the buildPage
assembly of some row list, with the request's cursor-truthiness flag and
the resolved limit. -/
theorem getMessages_ok_shape {convs : List String} {store : List Msg} {cid : String}
    {qlimit qcursor qdir : Option String} {page : PageOk}
    (h : getMessages convs store cid qlimit qcursor qdir = .ok page) :
    ∃ rows, page = buildPage (qcursor.getD "" != "") (resolveLimit (qlimit.getD "")) rows := by
  simp only [getMessages] at h
  repeat' split at h
  all_goals
    first
    | exact Except.noConfusion h
    | exact ⟨_, (Except.ok.inj h).symm⟩

/-- The pagination block of every assembled page satisfies the amended
cursor contract: has_more iff full, next_cursor iff full, prev_cursor
iff a cursor was supplied and the page is non-empty. -/
theorem buildPage_cursors (ct : Bool) (limit : Nat) (rows : List Msg) :
    ((buildPage ct limit rows).pagination.has_more = true ↔
      (buildPage ct limit rows).messages.length = (buildPage ct limit rows).pagination.limit) ∧
    (buildPage ct limit rows).pagination.next_cursor =
      (if (buildPage ct limit rows).messages.length = (buildPage ct limit rows).pagination.limit
       then (buildPage ct limit rows).messages.getLast?.map encodeCursor else none) ∧
    (buildPage ct limit rows).pagination.prev_cursor =
      (if ct = true ∧ (buildPage ct limit rows).messages ≠ []
       then (buildPage ct limit rows).messages.head?.map encodeCursor else none) := by
  refine ⟨?_, ?_, ?_⟩
  · simp [buildPage]
  · simp [buildPage]
  · cases ct with
    | false => simp [buildPage]
    | true =>
      cases rows with
      | nil => simp [buildPage]
      | cons m t => simp [buildPage]

/-- C6 amended: in every successful page response, has_more is true iff
the page is exactly full; next_cursor encodes the last returned message
and is present iff the page is exactly full; and prev_cursor encodes the
first returned message and is present iff the request supplied a
(truthy) cursor AND the page is non-empty — a supplied cursor with an
empty result page yields prev_cursor = null. -/
theorem getMessages_result_cursors {convs : List String} {store : List Msg} {cid : String}
    {qlimit qcursor qdir : Option String} {page : PageOk}
    (h : getMessages convs store cid qlimit qcursor qdir = .ok page) :
    (page.pagination.has_more = true ↔ page.messages.length = page.pagination.limit) ∧
    page.pagination.next_cursor =
      (if page.messages.length = page.pagination.limit
       then page.messages.getLast?.map encodeCursor else none) ∧
    page.pagination.prev_cursor =
      (if (qcursor.getD "" != "") = true ∧ page.messages ≠ []
       then page.messages.head?.map encodeCursor else none) := by
  obtain ⟨rows, rfl⟩ := getMessages_ok_shape h
  exact buildPage_cursors _ _ rows

/-- Witness for the amended C6: a cursored request whose page contains
one message, by the theorem applied at a concrete request; the page is
not full, so next_cursor is absent and has_more is false, while the
supplied cursor makes prev_cursor present. -/
theorem getMessages_result_cursors_witness :
    (((⟨[c6wmsg], ⟨50, none, some "t2_w1", false⟩⟩ : PageOk).pagination.has_more = true ↔
      (⟨[c6wmsg], ⟨50, none, some "t2_w1", false⟩⟩ : PageOk).messages.length =
        (⟨[c6wmsg], ⟨50, none, some "t2_w1", false⟩⟩ : PageOk).pagination.limit)) ∧
    (⟨[c6wmsg], ⟨50, none, some "t2_w1", false⟩⟩ : PageOk).pagination.next_cursor =
      (if (⟨[c6wmsg], ⟨50, none, some "t2_w1", false⟩⟩ : PageOk).messages.length =
          (⟨[c6wmsg], ⟨50, none, some "t2_w1", false⟩⟩ : PageOk).pagination.limit
       then (⟨[c6wmsg], ⟨50, none, some "t2_w1", false⟩⟩ : PageOk).messages.getLast?.map encodeCursor
       else none) ∧
    (⟨[c6wmsg], ⟨50, none, some "t2_w1", false⟩⟩ : PageOk).pagination.prev_cursor =
      (if (((some "t1_a" : Option String).getD "") != "") = true ∧
          (⟨[c6wmsg], ⟨50, none, some "t2_w1", false⟩⟩ : PageOk).messages ≠ []
       then (⟨[c6wmsg], ⟨50, none, some "t2_w1", false⟩⟩ : PageOk).messages.head?.map encodeCursor
       else none) :=
  @getMessages_result_cursors ["cw"] [c6wmsg] "cw" none (some "t1_a") none
    ⟨[c6wmsg], ⟨50, none, some "t2_w1", false⟩⟩ (by decide)

/-- C6 counterexample: the request supplies the well-formed cursor
"t1_m1" (the key of the conversation's last message), the query returns
zero rows, and prev_cursor is null even though a cursor was supplied —
refuting "prev_cursor is present if and only if the request itself
supplied a cursor". -/
theorem c6_prev_cursor_absent_on_empty_page :
    getMessages ["c6"] [c6msg] "c6" none (some "t1_m1") none =
      .ok ⟨[], ⟨50, none, none, false⟩⟩ := by decide

/-- C10: every successful page response whose message list is empty —
including a cursored request pointing past the last message — carries
next_cursor = null, prev_cursor = null and has_more = false; an empty
page never carries a cursor. -/
theorem getMessages_empty_page_no_cursors {convs : List String} {store : List Msg}
    {cid : String} {qlimit qcursor qdir : Option String} {page : PageOk}
    (h : getMessages convs store cid qlimit qcursor qdir = .ok page)
    (hempty : page.messages = []) :
    page.pagination.next_cursor = none ∧ page.pagination.prev_cursor = none ∧
    page.pagination.has_more = false := by
  obtain ⟨rows, rfl⟩ := getMessages_ok_shape h
  have hrows : rows = [] := hempty
  subst hrows
  have hl := resolveLimit_pos (qlimit.getD "")
  refine ⟨?_, ?_, ?_⟩
  · simp [buildPage]
  · simp [buildPage]
  · simp only [buildPage]
    simpa using by omega

/-- Once the connection is dead, the chunk loop of the adapter writes no
further event and leaves the session state unchanged (whatever outcome it
reports). -/
theorem aiLoop_dead (sc : Scenario) (cs : List String) (acc : String) (st : SState)
    (h : connDead sc st = true) : (aiLoop sc cs acc st).1 = st := by
  cases cs with
  | nil =>
    cases hf : sc.providerFailure with
    | none => simp [aiLoop, hf]
    | some e => simp [aiLoop, hf, aiCatch, sendEvent, h]
  | cons c cs2 => simp [aiLoop, aiCatch, sendEvent, h]

/-- The chunk loop under a disconnect that strikes while increments
remain: exactly the first k - |written| increments are forwarded as
token events (k the disconnect point), nothing is persisted by the loop,
and no event of any kind is written after the disconnect — in
particular the raw abort error chunk attempted by the adapter's catch
block is suppressed by the destroyed-stream check in sendEvent. -/
theorem aiLoop_disconnect (sc : Scenario) (k : Nat)
    (hk : sc.disconnectAfterEvents = some k) :
    ∀ (cs : List String) (acc : String) (st : SState),
      st.events.length < k → k ≤ st.events.length + cs.length →
      (aiLoop sc cs acc st).1 =
        ⟨st.events ++ (cs.take (k - st.events.length)).map WireEvent.token, st.persisted⟩ := by
  intro cs
  induction cs with
  | nil =>
    intro acc st h1 h2
    simp only [List.length_nil] at h2
    omega
  | cons c cs2 ih =>
    intro acc st h1 h2
    have hdead : connDead sc st = false := by
      simp only [connDead, hk, decide_eq_false_iff_not]
      omega
    have hsend : sendEvent sc st (.token c) = (⟨st.events ++ [.token c], st.persisted⟩, true) := by
      simp [sendEvent, hdead]
    simp only [aiLoop, hdead, Bool.false_eq_true, if_false, hsend]
    rw [if_pos trivial]
    have hlen2 : (SState.mk (st.events ++ [WireEvent.token c]) st.persisted).events.length =
        st.events.length + 1 := by simp
    by_cases hlast : k = st.events.length + 1
    · have hdead2 : connDead sc ⟨st.events ++ [.token c], st.persisted⟩ = true := by
        simp only [connDead, hk, decide_eq_true_eq]
        simp [hlast]
      rw [aiLoop_dead sc cs2 (acc ++ c) _ hdead2]
      have htake : k - st.events.length = 1 := by omega
      simp [htake]
    · have h1b : (SState.mk (st.events ++ [WireEvent.token c]) st.persisted).events.length < k := by
        simp only [hlen2]
        omega
      have h2b : k ≤ (SState.mk (st.events ++ [WireEvent.token c]) st.persisted).events.length + cs2.length := by
        simp only [hlen2]
        simp only [List.length_cons] at h2
        omega
      rw [ih (acc ++ c) _ h1b h2b]
      have htake : k - st.events.length = (k - (st.events.length + 1)) + 1 := by omega
      simp only [hlen2, htake, List.take_succ_cons, List.map_cons, List.append_assoc,
        List.cons_append, List.nil_append]

/-- Lexicographic character comparison is irreflexive. -/
theorem charsLt_irrefl (l : List Char) : charsLt l l = false := by
  induction l with
  | nil => rfl
  | cons a as ih => simp [charsLt, ih]

/-- Lexicographic character comparison is asymmetric. -/
theorem charsLt_asymm : ∀ l1 l2 : List Char, charsLt l1 l2 = true → charsLt l2 l1 = false := by
  intro l1
  induction l1 with
  | nil =>
    intro l2 h
    cases l2 with
    | nil => exact absurd h (by simp [charsLt])
    | cons b bs => rfl
  | cons a as ih =>
    intro l2 h
    cases l2 with
    | nil => exact absurd h (by simp [charsLt])
    | cons b bs =>
      by_cases hab : a < b
      · have hba : ¬ b < a := lt_asymm hab
        have hne : ¬ b = a := fun e => lt_irrefl a (e ▸ hab)
        simp [charsLt, hba, hne]
      · by_cases heq : a = b
        · subst heq
          simp only [charsLt, hab, if_false, if_pos rfl] at h
          simp [charsLt, ih bs h]
        · exact absurd h (by simp [charsLt, hab, heq])

/-- Lexicographic character comparison is transitive. -/
theorem charsLt_trans : ∀ l1 l2 l3 : List Char,
    charsLt l1 l2 = true → charsLt l2 l3 = true → charsLt l1 l3 = true := by
  intro l1
  induction l1 with
  | nil =>
    intro l2 l3 h1 h2
    cases l3 with
    | nil => cases l2 <;> simp [charsLt] at h2
    | cons c cs => simp [charsLt]
  | cons a as ih =>
    intro l2 l3 h1 h2
    cases l2 with
    | nil => simp [charsLt] at h1
    | cons b bs =>
      cases l3 with
      | nil => simp [charsLt] at h2
      | cons c cs =>
        by_cases hab : a < b
        · by_cases hbc : b < c
          · simp [charsLt, lt_trans hab hbc]
          · by_cases hbc2 : b = c
            · subst hbc2
              simp [charsLt, hab]
            · simp [charsLt, hbc, hbc2] at h2
        · by_cases hab2 : a = b
          · subst hab2
            simp only [charsLt, hab, if_false, if_pos rfl] at h1
            by_cases hac : a < c
            · simp [charsLt, hac]
            · by_cases hac2 : a = c
              · subst hac2
                simp only [charsLt, hac, if_false, if_pos rfl] at h2
                simp [charsLt, ih bs cs h1 h2]
              · simp [charsLt, hac, hac2] at h2
          · simp [charsLt, hab, hab2] at h1

/-- String comparison is irreflexive. -/
theorem strLt_irrefl (s : String) : strLt s s = false := charsLt_irrefl s.data

/-- String comparison is asymmetric. -/
theorem strLt_asymm {a b : String} (h : strLt a b = true) : strLt b a = false :=
  charsLt_asymm a.data b.data h

/-- String comparison is transitive. -/
theorem strLt_trans {a b c : String} (h1 : strLt a b = true) (h2 : strLt b c = true) :
    strLt a c = true :=
  charsLt_trans a.data b.data c.data h1 h2

/-- Comparable strings are distinct. -/
theorem strLt_ne {a b : String} (h : strLt a b = true) : a ≠ b := by
  intro e
  subst e
  rw [strLt_irrefl] at h
  exact Bool.noConfusion h

/-- The after filter in terms of the comparison. -/
theorem afterCond_iff (t i : String) (m : Msg) :
    afterCond t i m = true ↔
      (strLt t m.created_at = true ∨ (m.created_at = t ∧ strLt i m.id = true)) := by
  simp [afterCond]

/-- A strictly greater row passes the after filter keyed at the smaller
row. -/
theorem afterCond_of_msgLt {a b : Msg} (h : msgLt a b) :
    afterCond a.created_at a.id b = true := by
  rw [afterCond_iff]
  rcases h with h | ⟨he, hid⟩
  · exact Or.inl h
  · exact Or.inr ⟨he.symm, hid⟩

/-- A strictly smaller row fails the after filter keyed at the larger
row. -/
theorem afterCond_false_of_msgLt {x y : Msg} (h : msgLt x y) :
    afterCond y.created_at y.id x = false := by
  rw [Bool.eq_false_iff]
  intro hc
  rw [afterCond_iff] at hc
  rcases h with h | ⟨he, hid⟩
  · rcases hc with hc | ⟨hce, _⟩
    · rw [strLt_asymm h] at hc
      exact Bool.noConfusion hc
    · exact strLt_ne h hce
  · rcases hc with hc | ⟨_, hcid⟩
    · rw [he, strLt_irrefl] at hc
      exact Bool.noConfusion hc
    · rw [strLt_asymm hid] at hcid
      exact Bool.noConfusion hcid

/-- A row fails the after filter keyed at itself. -/
theorem afterCond_self (m : Msg) : afterCond m.created_at m.id m = false := by
  rw [Bool.eq_false_iff]
  intro hc
  rw [afterCond_iff] at hc
  rcases hc with hc | ⟨_, hid⟩
  · rw [strLt_irrefl] at hc
    exact Bool.noConfusion hc
  · rw [strLt_irrefl] at hid
    exact Bool.noConfusion hid

/-- The after filter composes transitively along the key order. -/
theorem afterCond_trans {t i : String} {m x : Msg}
    (h1 : afterCond t i m = true) (h2 : afterCond m.created_at m.id x = true) :
    afterCond t i x = true := by
  rw [afterCond_iff] at h1 h2 ⊢
  rcases h1 with h1 | ⟨he1, hi1⟩
  · rcases h2 with h2 | ⟨he2, _⟩
    · exact Or.inl (strLt_trans h1 h2)
    · exact Or.inl (by rw [he2]; exact h1)
  · rcases h2 with h2 | ⟨he2, hi2⟩
    · exact Or.inl (by rw [← he1]; exact h2)
    · exact Or.inr ⟨by rw [he2, he1], strLt_trans hi1 hi2⟩

/-- The strict row order embeds in the non-strict one. -/
theorem msgLe_of_msgLt {a b : Msg} (h : msgLt a b) : msgLe a b := by
  rcases h with h | ⟨he, hid⟩
  · exact Or.inl h
  · exact Or.inr ⟨he, Or.inl hid⟩

/-- A strictly ascending row list is sorted for the query order. -/
theorem sorted_msgLe_of_pairwise {l : List Msg} (h : l.Pairwise msgLt) :
    List.Sorted msgLe l :=
  h.imp msgLe_of_msgLt

/-- In a strictly ascending list split as P ++ S with lm the last row of
P, filtering for rows after lm returns exactly S: the adjacent page
starting at the cursor of lm picks up precisely where P stopped. -/
theorem filter_after_getLast :
    ∀ (P S : List Msg) (lm : Msg), (P ++ S).Pairwise msgLt →
      P.getLast? = some lm →
      (P ++ S).filter (afterCond lm.created_at lm.id) = S := by
  intro P
  induction P with
  | nil =>
    intro S lm _ h
    exact absurd h (by simp)
  | cons x P' ih =>
    intro S lm hp hl
    cases P' with
    | nil =>
      have hx : lm = x := by
        simp only [List.getLast?_singleton, Option.some.injEq] at hl
        exact hl.symm
      subst hx
      rw [List.singleton_append, List.filter_cons, afterCond_self]
      simp only [Bool.false_eq_true, if_false]
      rw [List.filter_eq_self]
      intro y hy
      exact afterCond_of_msgLt ((List.pairwise_cons.mp hp).1 y hy)
    | cons y P'' =>
      have hl2 : (y :: P'').getLast? = some lm := by
        rwa [List.getLast?_cons_cons] at hl
      have hp2 : ((y :: P'') ++ S).Pairwise msgLt := (List.pairwise_cons.mp hp).2
      have hne : (y :: P'') ≠ [] := by simp
      have hmem : lm ∈ y :: P'' := by
        rw [List.getLast?_eq_getLast _ hne, Option.some.injEq] at hl2
        rw [← hl2]
        exact List.getLast_mem hne
      have hxlt : msgLt x lm :=
        (List.pairwise_cons.mp hp).1 lm (List.mem_append_left S hmem)
      rw [List.cons_append, List.filter_cons, afterCond_false_of_msgLt hxlt]
      simp only [Bool.false_eq_true, if_false]
      exact ih S lm hp2 hl2

/-- Filtering after a row that itself lies after the cursor refines the
cursor filter: the two filters compose. -/
theorem filter_after_compose (L : List Msg) (t i : String) (lm : Msg)
    (hlm : afterCond t i lm = true) :
    (L.filter (afterCond t i)).filter (afterCond lm.created_at lm.id) =
      L.filter (afterCond lm.created_at lm.id) := by
  rw [List.filter_filter]
  apply List.filter_congr
  intro x _
  cases hax : afterCond lm.created_at lm.id x with
  | false => simp
  | true => simp [afterCond_trans hlm hax]

/-- Splitting a separator-free character list yields the list itself. -/
theorem jsSplitChars_no_sep (sep : Char) : ∀ l : List Char, sep ∉ l →
    jsSplitChars sep l = [l] := by
  intro l
  induction l with
  | nil => intro _; rfl
  | cons c cs ih =>
    intro h
    have hc : ¬ (c = sep) := fun e => h (e ▸ List.mem_cons_self c cs)
    have := ih (fun hm => h (List.mem_cons_of_mem c hm))
    simp [jsSplitChars, hc, this]

/-- Splitting around one separator with separator-free components yields
exactly the two components. -/
theorem jsSplitChars_append (sep : Char) : ∀ a b : List Char, sep ∉ a → sep ∉ b →
    jsSplitChars sep (a ++ sep :: b) = [a, b] := by
  intro a
  induction a with
  | nil =>
    intro b _ hb
    simp [jsSplitChars, jsSplitChars_no_sep sep b hb]
  | cons c a' ih =>
    intro b ha hb
    have hc : ¬ (c = sep) := fun e => ha (e ▸ List.mem_cons_self c a')
    have := ih b (fun hm => ha (List.mem_cons_of_mem c hm)) hb
    simp [jsSplitChars, hc, this]

/-- The characters of an encoded cursor. -/
theorem encode_data (t i : String) : (t ++ "_" ++ i).data = t.data ++ '_' :: i.data := by
  have h1 : (t ++ "_" ++ i).data = (t.data ++ ['_']) ++ i.data := rfl
  rw [h1, List.append_assoc, List.singleton_append]

/-- An encoded cursor is never the empty string. -/
theorem encode_ne_empty (t i : String) : (t ++ "_" ++ i) ≠ "" := by
  intro h
  have h2 : (t ++ "_" ++ i).data = ([] : List Char) := by rw [h]
  rw [encode_data] at h2
  exact absurd h2 (by simp)

/-- Round trip of the cursor codec: splitting an encoded cursor with
separator-free components recovers the two components. -/
theorem jsSplit_encode (t i : String) (ht : '_' ∉ t.data) (hi : '_' ∉ i.data) :
    jsSplit (t ++ "_" ++ i) '_' = [t, i] := by
  unfold jsSplit
  rw [encode_data, jsSplitChars_append '_' t.data i.data ht hi]
  rfl

/-- C2: when the client disconnects after at least one token event has
been written (and before the session would have completed on its own, so
that cancellation is actually observed at a checkpoint), the session
ends with exactly the user done event and the tokens written before the
disconnect on the wire: no assistant message is persisted, no event of
any type is written after the cancellation, and in particular no error
or cancelled event is ever surfaced — both the adapter's abort chunk and
the controller's classified error event are suppressed by the
destroyed-stream check, and the post-generation abort check skips
persistence. -/
theorem streamMessage_disconnect_silent (sc : Scenario) (s : String) (k : Nat)
    (hcontent : sc.content = .str s) (hne : s ≠ "") (hlen : utf16Len s ≤ 10000)
    (hconv : sc.conversationId ∈ sc.conversations)
    (hkey : sc.providerKeyConfigured = true)
    (huser : sc.userInsertOk = true)
    (hdisc : sc.disconnectAfterEvents = some k)
    (hk2 : 2 ≤ k) (hkt : k ≤ 1 + sc.providerIncrements.length) :
    streamMessage sc =
      ⟨none,
       .done sc.userMessageId :: (sc.providerIncrements.take (k - 1)).map WireEvent.token,
       [⟨sc.conversationId, sc.role.getD "user", s, sc.userMessageId⟩]⟩ := by
  have hn1 : ¬ (10000 < utf16Len s) := by omega
  have hle0 : ¬ (k ≤ 0) := by omega
  have hle1 : ¬ (k ≤ 1) := by omega
  have hloop := aiLoop_disconnect sc k hdisc sc.providerIncrements ""
    ⟨[.done sc.userMessageId], [⟨sc.conversationId, sc.role.getD "user", s, sc.userMessageId⟩]⟩
    (by simp; omega) (by simp; omega)
  simp only [List.length_cons, List.length_nil, Nat.zero_add] at hloop
  simp only [streamMessage, hcontent, if_neg hne, if_neg hn1, if_pos hconv, huser, if_true]
  simp only [List.nil_append]
  simp [sendEvent, connDead, hdisc, hle0, hle1, streamAIResponse, hkey]
  rw [hloop]
  have hmin : min (k - 1) sc.providerIncrements.length = k - 1 := by omega
  have hkk : k ≤ 1 + (k - 1) := by omega
  have hkk2 : k ≤ k - 1 + 1 := by omega
  cases hout : (aiLoop sc sc.providerIncrements ""
      ⟨[.done sc.userMessageId],
       [⟨sc.conversationId, sc.role.getD "user", s, sc.userMessageId⟩]⟩).2 with
  | error e => simp [hout, hmin, hkk, hkk2, finishRun, outerCatch, connDead, hdisc]
  | ok full => simp [hout, hmin, hkk, hkk2, finishRun, outerCatch, connDead, hdisc]

/-- Witness for C2: in the concrete disconnect-after-two-events scenario
the run consists of the user done event and the first token only, with
just the user message persisted, by the theorem applied at that
scenario. -/
theorem streamMessage_disconnect_silent_witness :
    streamMessage c2scenario =
      ⟨none, [.done "u4", .token "Hel"],
       [⟨"c4", "user", "hi", "u4"⟩]⟩ :=
  streamMessage_disconnect_silent c2scenario "hi" 2 rfl (by decide) (by decide)
    (by decide) rfl rfl rfl (by decide) (by decide)

/-- Witness for C10: a cursored request past the conversation's only
message returns the empty page with no cursors, by the theorem applied
at a concrete request. -/
theorem getMessages_empty_page_no_cursors_witness :
    (⟨[], ⟨50, none, none, false⟩⟩ : PageOk).pagination.next_cursor = none ∧
    (⟨[], ⟨50, none, none, false⟩⟩ : PageOk).pagination.prev_cursor = none ∧
    (⟨[], ⟨50, none, none, false⟩⟩ : PageOk).pagination.has_more = false :=
  @getMessages_empty_page_no_cursors ["cp"] [c10msg] "cp" none (some "t5_p1") none
    ⟨[], ⟨50, none, none, false⟩⟩ (by decide) (by decide)

/-- Forward paging collects exactly the rows after the cursor: for a
conversation whose rows are strictly ascending in `(created_at, id)` and
whose fields are valid cursor components, repeatedly following
next_cursor with direction after concatenates to precisely the filtered
ascending suffix — no duplicate, no gap, adjacent pages meeting exactly
at the id tiebreak. -/
theorem collectAfter_spec (convs : List String) (store : List Msg) (cid : String)
    (qlimit : Option String)
    (hconv : cid ∈ convs)
    (hgood : ∀ m ∈ store, goodMsg m)
    (hsort : (store.filter (fun m => m.conversation_id == cid)).Pairwise msgLt) :
    ∀ (fuel : Nat) (t i : String), goodStr t → goodStr i →
      ((store.filter (fun m => m.conversation_id == cid)).filter (afterCond t i)).length < fuel →
      collectAfter convs store cid qlimit fuel (some (t ++ "_" ++ i)) =
        (store.filter (fun m => m.conversation_id == cid)).filter (afterCond t i) := by
  intro fuel
  induction fuel with
  | zero =>
    intro t i _ _ h
    omega
  | succ n ih =>
    intro t i ht hi hlen
    have hlim1 : 1 ≤ resolveLimit (qlimit.getD "") := resolveLimit_pos _
    have htr : ((t ++ "_" ++ i) != "") = true := by
      simpa using encode_ne_empty t i
    have hLpair : ((store.filter (fun m => m.conversation_id == cid)).filter
        (afterCond t i)).Pairwise msgLt := hsort.filter _
    have hsorted : List.Sorted msgLe ((store.filter (fun m => m.conversation_id == cid)).filter
        (afterCond t i)) := sorted_msgLe_of_pairwise hLpair
    have hquery : runQuery store cid (some (t, i)) "after" (resolveLimit (qlimit.getD "")) =
        ((store.filter (fun m => m.conversation_id == cid)).filter
          (afterCond t i)).take (resolveLimit (qlimit.getD "")) := by
      simp only [runQuery]
      rw [if_pos ⟨ht.1, hi.1⟩, if_pos trivial, List.Sorted.insertionSort_eq hsorted]
    have hdir : resolveDirection (some "after") = "after" := rfl
    have hget : getMessages convs store cid qlimit (some (t ++ "_" ++ i)) (some "after") =
        .ok (buildPage true (resolveLimit (qlimit.getD ""))
          (((store.filter (fun m => m.conversation_id == cid)).filter
            (afterCond t i)).take (resolveLimit (qlimit.getD "")))) := by
      simp only [getMessages, Option.getD_some, htr, hdir, parseCursor, if_true,
        jsSplit_encode t i ht.2 hi.2]
      rw [if_pos (Or.inl trivial), if_pos hconv, hquery]
    simp only [collectAfter, hget, buildPage]
    by_cases hfull : resolveLimit (qlimit.getD "") ≤
        ((store.filter (fun m => m.conversation_id == cid)).filter (afterCond t i)).length
    · have htl : (((store.filter (fun m => m.conversation_id == cid)).filter
          (afterCond t i)).take (resolveLimit (qlimit.getD ""))).length =
          resolveLimit (qlimit.getD "") := by
        rw [List.length_take]
        omega
      have hne : ((store.filter (fun m => m.conversation_id == cid)).filter
          (afterCond t i)).take (resolveLimit (qlimit.getD "")) ≠ [] := by
        intro e
        rw [e] at htl
        simp only [List.length_nil] at htl
        omega
      obtain ⟨lm, hlm⟩ : ∃ lm, (((store.filter (fun m => m.conversation_id == cid)).filter
          (afterCond t i)).take (resolveLimit (qlimit.getD ""))).getLast? = some lm :=
        ⟨_, List.getLast?_eq_getLast _ hne⟩
      rw [if_pos htl, hlm]
      have hlmrows : lm ∈ ((store.filter (fun m => m.conversation_id == cid)).filter
          (afterCond t i)).take (resolveLimit (qlimit.getD "")) := by
        have h1 := List.getLast?_eq_getLast _ hne
        rw [hlm, Option.some.injEq] at h1
        rw [h1]
        exact List.getLast_mem hne
      have hlmL : lm ∈ (store.filter (fun m => m.conversation_id == cid)).filter
          (afterCond t i) := List.mem_of_mem_take hlmrows
      have hlmafter : afterCond t i lm = true := List.of_mem_filter hlmL
      have hlmgood : goodMsg lm :=
        hgood lm (List.mem_of_mem_filter (List.mem_of_mem_filter hlmL))
      have h6 := filter_after_getLast
        (((store.filter (fun m => m.conversation_id == cid)).filter
          (afterCond t i)).take (resolveLimit (qlimit.getD "")))
        (((store.filter (fun m => m.conversation_id == cid)).filter
          (afterCond t i)).drop (resolveLimit (qlimit.getD "")))
        lm (by rw [List.take_append_drop]; exact hLpair) hlm
      rw [List.take_append_drop] at h6
      have hdropeq : (store.filter (fun m => m.conversation_id == cid)).filter
          (afterCond lm.created_at lm.id) =
          ((store.filter (fun m => m.conversation_id == cid)).filter
            (afterCond t i)).drop (resolveLimit (qlimit.getD "")) := by
        rw [← filter_after_compose (store.filter (fun m => m.conversation_id == cid))
          t i lm hlmafter]
        exact h6
      have hlen2 : ((store.filter (fun m => m.conversation_id == cid)).filter
          (afterCond lm.created_at lm.id)).length < n := by
        rw [hdropeq, List.length_drop]
        omega
      have hrec := ih lm.created_at lm.id hlmgood.1 hlmgood.2 hlen2
      simp only [Option.map_some', encodeCursor]
      rw [hrec, hdropeq]
      exact List.take_append_drop _ _
    · have hTake : ((store.filter (fun m => m.conversation_id == cid)).filter
          (afterCond t i)).take (resolveLimit (qlimit.getD "")) =
          (store.filter (fun m => m.conversation_id == cid)).filter (afterCond t i) :=
        List.take_of_length_le (by omega)
      have hcond : ¬ ((((store.filter (fun m => m.conversation_id == cid)).filter
          (afterCond t i)).take (resolveLimit (qlimit.getD ""))).length =
          resolveLimit (qlimit.getD "")) := by
        rw [hTake]
        omega
      rw [if_neg hcond]
      exact hTake

/-- C1: for a conversation whose stored rows are strictly ascending in
`(created_at, id)` (ids unique, so ties on created_at are broken by id)
with cursor-safe field values, starting from any cursor strictly below
every row and repeatedly requesting pages with direction after — passing
each page's next_cursor forward and concatenating the returned pages —
reproduces the conversation's full message sequence in ascending order,
with no message duplicated and no message skipped, for every fixed
requested limit and enough fuel. -/
theorem getMessages_paging_after_complete (convs : List String) (store : List Msg)
    (cid : String) (qlimit : Option String) (t0 i0 : String) (fuel : Nat)
    (hconv : cid ∈ convs)
    (hgood : ∀ m ∈ store, goodMsg m)
    (hsort : (store.filter (fun m => m.conversation_id == cid)).Pairwise msgLt)
    (ht : goodStr t0) (hi : goodStr i0)
    (hbelow : ∀ m ∈ store.filter (fun m => m.conversation_id == cid),
      afterCond t0 i0 m = true)
    (hfuel : (store.filter (fun m => m.conversation_id == cid)).length < fuel) :
    collectAfter convs store cid qlimit fuel (some (t0 ++ "_" ++ i0)) =
      store.filter (fun m => m.conversation_id == cid) := by
  have hfe : (store.filter (fun m => m.conversation_id == cid)).filter (afterCond t0 i0) =
      store.filter (fun m => m.conversation_id == cid) :=
    List.filter_eq_self.mpr hbelow
  have h := collectAfter_spec convs store cid qlimit hconv hgood hsort fuel t0 i0 ht hi
    (by rw [hfe]; exact hfuel)
  rw [hfe] at h
  exact h

/-- First row of the C1 witness conversation; all three share created_at
"t" so the id tiebreak is exercised. -/
def c1m1 : Msg := ⟨"a", "cc", "user", "x", "t"⟩

/-- Second row of the C1 witness conversation. -/
def c1m2 : Msg := ⟨"b", "cc", "user", "y", "t"⟩

/-- Third row of the C1 witness conversation. -/
def c1m3 : Msg := ⟨"c", "cc", "user", "z", "t"⟩

/-- Witness for C1: three rows with identical created_at, limit 2, paged
with direction after from a cursor below all rows, concatenate to the
full sequence (pages [c1m1, c1m2] then [c1m3], meeting exactly at the id
tiebreak), by the theorem applied at the concrete conversation. -/
theorem getMessages_paging_after_complete_witness :
    collectAfter ["cc"] [c1m1, c1m2, c1m3] "cc" (some "2") 4 (some ("s" ++ "_" ++ "s")) =
      [c1m1, c1m2, c1m3] := by
  have h := getMessages_paging_after_complete ["cc"] [c1m1, c1m2, c1m3] "cc" (some "2")
    "s" "s" 4 (by decide) (by decide) (by decide) (by decide) (by decide)
    (by decide) (by decide)
  exact h.trans (by decide)
